import Mathlib

/-!
Shallow embedding of the DHT node wrapper (src/src/main.rs).

The program is a thin command-line front end over a Kademlia behaviour:
a local record store (libp2p `MemoryStore`), a command dispatcher
(`process_command`), a startup phase that may run one command taken from
the process arguments, a stdin-reading producer task, and a
`tokio::select!` event loop multiplexing the producer's channel with
swarm events.

Pure data (records, keys, commands, printed messages) is embedded
directly; the stateful parts are embedded as explicit state-passing
functions: `processCommand` over a `SwarmState`, `loopStep` as one
iteration of the event loop, `producerStep` as one iteration of the
stdin-reading task, and `startup` as the argument-processing phase of
`main` before the loop.

The libp2p Kademlia/MemoryStore library is an external dependency whose
code is not part of this repository; the record store and the query
submission interface are modelled from the specification (sections 4.1
and 4.4), as marked on the individual definitions.
-/

/-- UTF-8 encoding of one character, as a list of byte values. -/
def charUtf8 (c : Char) : List Nat :=
  let n := c.toNat
  if n < 0x80 then
    [n]
  else if n < 0x800 then
    [0xC0 + n / 0x40, 0x80 + n % 0x40]
  else if n < 0x10000 then
    [0xE0 + n / 0x1000, 0x80 + n / 0x40 % 0x40, 0x80 + n % 0x40]
  else
    [0xF0 + n / 0x40000, 0x80 + n / 0x1000 % 0x40, 0x80 + n / 0x40 % 0x40,
      0x80 + n % 0x40]

/-- A record key or value: the raw UTF-8 bytes of the textual argument
(`key_string.as_bytes().to_vec()` wrapped by `RecordKey::new`, which
keeps the bytes as given). Bytes are embedded as natural numbers. -/
def strBytes (s : String) : List Nat :=
  s.data.flatMap charUtf8

/-- A stored record, as built by `Record::new(key, value)`: key bytes,
value bytes, no publisher and no expiry. -/
structure Record where
  key : List Nat
  value : List Nat
  publisher : Option Nat
  expires : Option Nat
deriving DecidableEq, Repr

/-- `Record::new(key, value)`: publisher and expiry are left unset. -/
def Record.new (key value : List Nat) : Record :=
  ⟨key, value, none, none⟩

/-- Modelled from the spec: the libp2p `MemoryStore` record store is
library code, not part of this repository's sources. Per section 4.1 it
is an in-memory mapping from key to record; embedded as a list of
records holding at most one record per key. -/
structure MemoryStore where
  records : List Record
deriving DecidableEq, Repr

/-- Modelled from the spec (section 4.1): `put(record)` inserts or
overwrites the record for `record.key`; always succeeds (no memory
limit is enforced, so it is infallible). -/
def MemoryStore.put (s : MemoryStore) (r : Record) : MemoryStore :=
  ⟨r :: s.records.filter (fun q => q.key != r.key)⟩

/-- Modelled from the spec (section 4.1): `get(key)` returns the record
if present, else a normal miss. -/
def MemoryStore.get (s : MemoryStore) (k : List Nat) : Option Record :=
  s.records.find? (fun r => r.key == k)

/-- Quorum argument of `put_record`; the program only ever uses
`Quorum::One`. -/
inductive Quorum where
  | one
  | majority
  | n (count : Nat)
deriving DecidableEq, Repr

/-- A query submitted to the Kademlia query engine: `put_record`
(replication of a record at a given quorum) or `get_record`
(a FindValue lookup for a key). Modelled from the spec (section 4.4):
submission enqueues the query; its outcome is reported asynchronously
and is outside this embedding. -/
inductive DhtQuery where
  | putRecord (r : Record) (q : Quorum)
  | getRecord (key : List Nat)
deriving DecidableEq, Repr

/-- The observable state of the swarm's Kademlia behaviour: the local
record store and the list of queries submitted so far (in submission
order). -/
structure SwarmState where
  store : MemoryStore
  queries : List DhtQuery
deriving DecidableEq, Repr

/-- One line printed by the program, abstracted to its message kind and
payload. -/
inductive Output where
  | storedLocally (key : String)
  | publishingToDht (key : String)
  | errorPublishingToDht (key : String)
  | foundLocally (key : String) (value : List Nat)
  | notFoundLocally (key : String)
  | queryingDht (key : String)
  | usage
  | nodeRunning
  | exiting
  | errorProcessing (msg : String)
  | listeningOn (addr : String)
  | networkEvent
deriving DecidableEq, Repr

/-- `process_command(args, swarm)` from src/src/main.rs lines 116-163:
dispatch on the argument vector. `args.len() > 3 && args[1] == "put"`
stores the record locally (the `?` on the store call is modelled by the
`Except` result) and then submits `put_record(record, Quorum::One)`;
`args.len() > 2 && args[1] == "get"` checks the local store first and
only on a miss submits `get_record`; anything else prints the usage
text. Per the spec (section 4.4) submission of the Store query
succeeds and its outcome is reported later, so the `Ok` arm of the
`put_record` match is taken. -/
def processCommand (args : List String) (st : SwarmState) :
    Except String (SwarmState × List Output) :=
  if args.length > 3 ∧ args[1]! = "put" then
    let keyString := args[2]!
    let value := strBytes args[3]!
    let key_bytes := strBytes keyString
    let record := Record.new key_bytes value
    let store' := st.store.put record
    let record_for_dht := Record.new key_bytes value
    Except.ok (⟨store', st.queries ++ [DhtQuery.putRecord record_for_dht Quorum.one]⟩,
      [Output.storedLocally keyString, Output.publishingToDht keyString])
  else if args.length > 2 ∧ args[1]! = "get" then
    let keyString := args[2]!
    let key_bytes := strBytes keyString
    match st.store.get key_bytes with
    | some record =>
        Except.ok (st, [Output.foundLocally keyString record.value])
    | none =>
        Except.ok (⟨st.store, st.queries ++ [DhtQuery.getRecord key_bytes]⟩,
          [Output.notFoundLocally keyString, Output.queryingDht keyString])
  else
    Except.ok (st, [Output.usage])

/-- Helper for `splitWhitespace`: walks the characters, accumulating
the current token in reverse. -/
def splitWhitespaceAux : List Char → List Char → List String
  | [], acc => if acc.isEmpty then [] else [⟨acc.reverse⟩]
  | c :: cs, acc =>
    if c.isWhitespace then
      (if acc.isEmpty then [] else [⟨acc.reverse⟩]) ++ splitWhitespaceAux cs []
    else
      splitWhitespaceAux cs (c :: acc)

/-- Rust's `str::split_whitespace`: split at whitespace, dropping empty
tokens (so an all-whitespace or empty line yields no tokens). -/
def splitWhitespace (s : String) : List String :=
  splitWhitespaceAux s.data []

/-- Rust's `str::trim`: drop leading and trailing whitespace. -/
def strTrim (s : String) : String :=
  ⟨((s.data.dropWhile Char.isWhitespace).reverse.dropWhile
      Char.isWhitespace).reverse⟩

/-- Startup phase of `main` (lines 40-52): with no arguments beyond the
program name, print the usage text and the running note; otherwise run
`process_command` once on the argument vector (an error would propagate
out of `main` through the `?`, hence the `Except`). -/
def startup (argv : List String) (st : SwarmState) :
    Except String (SwarmState × List Output) :=
  if argv.length ≤ 1 then
    Except.ok (st, [Output.usage, Output.nodeRunning])
  else
    processCommand argv st

/-- A swarm event observed by the loop's second `select!` branch
(lines 100-110): a new listen address, a Kademlia behaviour event, or
any other swarm event (silently ignored by the wildcard arm). -/
inductive NetEvent where
  | newListenAddr (addr : String)
  | behaviour
  | other
deriving DecidableEq, Repr

/-- One event the `tokio::select!` in the main loop (lines 79-112) can
wake up on: the input channel yields a line (`Some(line) = rx.recv()`),
the input channel is closed and empty so `rx.recv()` yields `None`
(the pattern does not match, the branch is disabled for this iteration
and `select!` keeps waiting on the swarm branch), or a swarm event. -/
inductive LoopEvent where
  | line (l : String)
  | chanClosed
  | net (e : NetEvent)
deriving DecidableEq, Repr

/-- Whether one loop iteration falls through to the next iteration or
breaks out of the loop (only `break Ok(())` on the exit command). -/
inductive StepRes where
  | cont (st : SwarmState)
  | exit
deriving DecidableEq, Repr

/-- One iteration of the main event loop (lines 79-112): on a received
line, tokenize it by whitespace; an empty token list is skipped; a
first token `exit` breaks the loop; otherwise `process_command` runs on
`"program"` prepended to the tokens, and an error from it is printed
and swallowed. A closed input channel disables that branch, so the
iteration falls through with no effect. Swarm events print the listen
address or the behaviour event and never break the loop. The second
component is the list of lines printed during the iteration. -/
def loopStep (st : SwarmState) (ev : LoopEvent) : StepRes × List Output :=
  match ev with
  | LoopEvent.line line =>
    let args := splitWhitespace line
    if !args.isEmpty then
      if args[0]! = "exit" then
        (StepRes.exit, [Output.exiting])
      else
        let cmd_args := "program" :: args
        match processCommand cmd_args st with
        | Except.ok (st2, outs) => (StepRes.cont st2, outs)
        | Except.error e => (StepRes.cont st, [Output.errorProcessing e])
    else
      (StepRes.cont st, [])
  | LoopEvent.chanClosed => (StepRes.cont st, [])
  | LoopEvent.net e =>
    match e with
    | NetEvent.newListenAddr a => (StepRes.cont st, [Output.listeningOn a])
    | NetEvent.behaviour => (StepRes.cont st, [Output.networkEvent])
    | NetEvent.other => (StepRes.cont st, [])

/-- Result of one `read_line` call in the stdin-reading task
(lines 62-76): `ok n buf` is Rust's `Ok(n)` with `buf` the line buffer
contents after the call (the buffer is cleared before each read, so at
end of input `read_line` returns `Ok(0)` and the buffer is empty);
`err` is a read error. -/
inductive ReadRes where
  | ok (n : Nat) (buf : String)
  | err
deriving DecidableEq, Repr

/-- What the producer does with one read result. -/
inductive ProducerAct where
  | send (msg : String)
  | stop
deriving DecidableEq, Repr

/-- One iteration of the stdin-reading producer task (lines 66-75): on
any `Ok` read result — including `Ok(0)` at end of input — it sends the
trimmed buffer into the channel and keeps looping; it stops only when
the read errors or the send fails because the receiver was dropped. -/
def producerStep (r : ReadRes) (receiverAlive : Bool) : ProducerAct :=
  match r with
  | ReadRes.ok _ buf => if receiverAlive then ProducerAct.send (strTrim buf) else ProducerAct.stop
  | ReadRes.err => ProducerAct.stop

/-- Whether a loop iteration result breaks out of the loop. -/
def StepRes.isExit : StepRes → Bool
  | StepRes.cont _ => false
  | StepRes.exit => true

/-- Whether an input line's first whitespace token is exactly `exit`
(the loop's break condition, lines 84-88). -/
def isExitLine (l : String) : Bool :=
  !(splitWhitespace l).isEmpty && ((splitWhitespace l)[0]! == r"exit")

/-- The only loop events that break the loop: a received line whose
first token is `exit`. -/
def eventExits : LoopEvent → Bool
  | LoopEvent.line l => isExitLine l
  | LoopEvent.chanClosed => false
  | LoopEvent.net _ => false

-- sanity checks that the embedded string primitives compute
example : strBytes (r"ab") = [97, 98] := by decide
example : splitWhitespace (r"exit now") = [r"exit", r"now"] := by decide
example : splitWhitespace (r"") = [] := by decide
example : strTrim (r"  x ") = r"x" := by decide

/-! ## Helper lemmas -/

theorem processCommand_isOk (args : List String) (st : SwarmState) :
    (processCommand args st).isOk = true := by
  unfold processCommand
  split
  · rfl
  · split
    · cases h : st.store.get (strBytes args[2]!) <;> simp [h, Except.isOk, Except.toBool]
    · rfl

theorem loopStep_isExit_eq (st : SwarmState) (ev : LoopEvent) :
    ((loopStep st ev).1).isExit = eventExits ev := by
  cases ev with
  | line l =>
    cases harg : splitWhitespace l with
    | nil => simp [loopStep, eventExits, isExitLine, harg, StepRes.isExit]
    | cons a t =>
      by_cases hx : a = r"exit"
      · simp [loopStep, eventExits, isExitLine, harg, hx, StepRes.isExit]
      · have hval : (processCommand (r"program" :: a :: t) st).isOk = true :=
          processCommand_isOk _ _
        cases hp : processCommand (r"program" :: a :: t) st with
        | error e => rw [hp] at hval; cases hval
        | ok p =>
          cases p with
          | mk st2 outs =>
            simp [loopStep, eventExits, isExitLine, harg, hx, hp, StepRes.isExit]
  | chanClosed => rfl
  | net e => cases e <;> rfl

theorem filter_eq_key_of_filter_ne_key (kb : List Nat) (l : List Record) :
    (l.filter (fun q => q.key != kb)).filter (fun r => r.key == kb) = [] := by
  induction l with
  | nil => rfl
  | cons a t ih =>
    by_cases h : a.key = kb
    · simp [List.filter_cons, h, ih]
    · simp [List.filter_cons, h, ih]

/-! ## Claim theorems -/

/-- C1: for every key `k` and value `v`, `put k v` followed immediately
by `get k` finds the record in the local store with value `v`: the get
returns the found-locally message and leaves the state unchanged — in
particular no `get_record` DHT query is started. -/
theorem put_then_get_finds_locally (k v : String) (st : SwarmState) :
    ∃ st1 outs,
      processCommand [r"program", r"put", k, v] st = Except.ok (st1, outs) ∧
      processCommand [r"program", r"get", k] st1 =
        Except.ok (st1, [Output.foundLocally k (strBytes v)]) := by
  refine ⟨_, _, rfl, ?_⟩
  simp [processCommand, MemoryStore.get, MemoryStore.put, Record.new]

/-- C2: `put k v1` then `put k v2` leaves the local store with exactly
one record under the key of `k`, holding value `v2`, so a subsequent
local get returns `v2` only (last-write-wins). -/
theorem put_put_last_write_wins (k v1 v2 : String) (st : SwarmState) :
    ∃ st1 o1 st2 o2,
      processCommand [r"program", r"put", k, v1] st = Except.ok (st1, o1) ∧
      processCommand [r"program", r"put", k, v2] st1 = Except.ok (st2, o2) ∧
      st2.store.records.filter (fun r => r.key == strBytes k) =
        [Record.new (strBytes k) (strBytes v2)] ∧
      st2.store.get (strBytes k) = some (Record.new (strBytes k) (strBytes v2)) := by
  refine ⟨_, _, _, _, rfl, rfl, ?_, ?_⟩
  · simp [processCommand, MemoryStore.put, Record.new,
      filter_eq_key_of_filter_ne_key]
  · simp [processCommand, MemoryStore.put, MemoryStore.get, Record.new]

/-- C3: a `get` consults the local record store first: on a hit the
found record is printed and the state is unchanged (no DHT query); only
on a local miss is a `get_record` (FindValue) query submitted. -/
theorem get_checks_local_store_first (k : String) (st : SwarmState) :
    (∀ r, st.store.get (strBytes k) = some r →
      processCommand [r"program", r"get", k] st =
        Except.ok (st, [Output.foundLocally k r.value])) ∧
    (st.store.get (strBytes k) = none →
      processCommand [r"program", r"get", k] st =
        Except.ok (⟨st.store, st.queries ++ [DhtQuery.getRecord (strBytes k)]⟩,
          [Output.notFoundLocally k, Output.queryingDht k])) := by
  constructor
  · intro rec h
    simp [processCommand, h]
  · intro h
    simp [processCommand, h]

theorem get_checks_local_store_first_wit :
    processCommand [r"program", r"get", r"a"]
        ⟨⟨[Record.new (strBytes (r"a")) [49]]⟩, []⟩ =
      Except.ok (⟨⟨[Record.new (strBytes (r"a")) [49]]⟩, []⟩,
        [Output.foundLocally (r"a") [49]]) ∧
    processCommand [r"program", r"get", r"b"] ⟨⟨[]⟩, []⟩ =
      Except.ok (⟨⟨[]⟩, [DhtQuery.getRecord (strBytes (r"b"))]⟩,
        [Output.notFoundLocally (r"b"), Output.queryingDht (r"b")]) :=
  ⟨(get_checks_local_store_first (r"a") ⟨⟨[Record.new (strBytes (r"a")) [49]]⟩, []⟩).1
      (Record.new (strBytes (r"a")) [49]) rfl,
    (get_checks_local_store_first (r"b") ⟨⟨[]⟩, []⟩).2 rfl⟩

/-- C4 (counterexample): an empty input line, which the claim lists
among the malformed inputs that should produce a usage message, in fact
produces no output at all: the loop's emptiness guard skips it before
it reaches the command dispatcher. -/
theorem empty_line_prints_nothing_cx :
    loopStep ⟨⟨[]⟩, []⟩ (LoopEvent.line (r"")) = (StepRes.cont ⟨⟨[]⟩, []⟩, []) :=
  rfl

/-- C4 (amended): every malformed argument vector reaching the command
dispatcher — unknown keyword or too few arguments — produces exactly
the usage message and leaves the swarm state unchanged; an empty (or
all-whitespace) input line is instead discarded by the event loop
before dispatch, producing no output and no state change. -/
theorem malformed_input_usage_no_state_change :
    (∀ args st, ¬(args.length > 3 ∧ args[1]! = r"put") →
      ¬(args.length > 2 ∧ args[1]! = r"get") →
      processCommand args st = Except.ok (st, [Output.usage])) ∧
    (∀ st l, splitWhitespace l = [] →
      loopStep st (LoopEvent.line l) = (StepRes.cont st, [])) := by
  constructor
  · intro args st hp hg
    simp [processCommand, hp, hg]
  · intro st l h
    simp [loopStep, h]

theorem malformed_input_usage_no_state_change_wit :
    processCommand [r"program", r"put", r"onlykey"] ⟨⟨[]⟩, []⟩ =
      Except.ok (⟨⟨[]⟩, []⟩, [Output.usage]) ∧
    loopStep ⟨⟨[]⟩, []⟩ (LoopEvent.line (r"   ")) = (StepRes.cont ⟨⟨[]⟩, []⟩, []) :=
  ⟨malformed_input_usage_no_state_change.1 [r"program", r"put", r"onlykey"]
      ⟨⟨[]⟩, []⟩ (by decide) (by decide),
    malformed_input_usage_no_state_change.2 ⟨⟨[]⟩, []⟩ (r"   ") (by decide)⟩

/-- C5: no single command failure is fatal: `process_command` never
returns an error (the local store write is infallible and query
submission succeeds), and an event-loop iteration breaks out of the
loop only for a line whose first token is `exit` — every other event,
including any hypothetical command error (which the loop catches and
prints), leaves the loop running. -/
theorem no_single_failure_is_fatal :
    (∀ args st, (processCommand args st).isOk = true) ∧
    (∀ st ev, ((loopStep st ev).1).isExit = eventExits ev) :=
  ⟨processCommand_isOk, loopStep_isExit_eq⟩

/-- C6 (counterexample): at end of input, `read_line` returns `Ok(0)`
with an empty buffer, and the producer — which only checks `is_ok()` —
sends the empty line instead of closing its channel; and even were the
channel closed, a loop iteration waking on the closed channel continues
rather than terminating. -/
theorem end_of_input_does_not_terminate_cx :
    producerStep (ReadRes.ok 0 (r"")) true = ProducerAct.send (r"") ∧
    (loopStep ⟨⟨[]⟩, []⟩ LoopEvent.chanClosed).1 = StepRes.cont ⟨⟨[]⟩, []⟩ :=
  ⟨rfl, rfl⟩

/-- C6 (amended): the event loop terminates only on an input line whose
first token is `exit`; no network event or command error breaks it, and
end of input does not either — the producer treats the `Ok(0)` read
result at end of input as success and keeps sending (empty) lines
instead of closing its queue, and a closed channel merely disables the
input branch of the `select!`. -/
theorem loop_terminates_only_on_exit_command :
    (∀ st ev, ((loopStep st ev).1).isExit = eventExits ev) ∧
    (∀ n buf, producerStep (ReadRes.ok n buf) true = ProducerAct.send (strTrim buf)) :=
  ⟨loopStep_isExit_eq, fun _ _ => rfl⟩

/-- C7: a well-formed `put` writes the record to the local store via
`MemoryStore.put` and submits a `put_record` Store query with
`Quorum::One` for the same record; the local-store line is printed
before the publish line, reflecting that the local write comes first. -/
theorem put_stores_locally_and_publishes_quorum_one (k v : String) (st : SwarmState) :
    processCommand [r"program", r"put", k, v] st =
      Except.ok
        (⟨st.store.put (Record.new (strBytes k) (strBytes v)),
          st.queries ++ [DhtQuery.putRecord (Record.new (strBytes k) (strBytes v)) Quorum.one]⟩,
        [Output.storedLocally k, Output.publishingToDht k]) :=
  rfl

/-- C8: the synchronous local write of a well-formed `put` never
errors: whatever the current store contents (any number of previously
stored records) and whatever extra arguments follow, `process_command`
returns `Ok`. -/
theorem local_put_write_always_succeeds (k v : String) (rest : List String)
    (st : SwarmState) :
    (processCommand (r"program" :: r"put" :: k :: v :: rest) st).isOk = true :=
  processCommand_isOk _ _

/-- C9: at process start, an argument vector with more than the program
name runs `process_command` exactly once (the startup phase is that one
application); with no extra arguments it prints the usage guidance and
the running note and changes no state, and the loop starts in either
case. -/
theorem startup_runs_initial_command_once (argv : List String) (st : SwarmState) :
    (argv.length ≤ 1 →
      startup argv st = Except.ok (st, [Output.usage, Output.nodeRunning])) ∧
    (argv.length > 1 → startup argv st = processCommand argv st) := by
  constructor
  · intro h
    simp [startup, h]
  · intro h
    rw [startup, if_neg (by omega)]

theorem startup_runs_initial_command_once_wit :
    startup [r"program"] ⟨⟨[]⟩, []⟩ =
      Except.ok (⟨⟨[]⟩, []⟩, [Output.usage, Output.nodeRunning]) ∧
    startup [r"program", r"get", r"a"] ⟨⟨[]⟩, []⟩ =
      processCommand [r"program", r"get", r"a"] ⟨⟨[]⟩, []⟩ :=
  ⟨(startup_runs_initial_command_once [r"program"] ⟨⟨[]⟩, []⟩).1 (by decide),
    (startup_runs_initial_command_once [r"program", r"get", r"a"] ⟨⟨[]⟩, []⟩).2
      (by decide)⟩

/-- C10: `exit` is recognized by the first whitespace token only, and
only in the interactive loop: any line whose first token is `exit`
breaks the loop even with extra tokens after it, while `exit` given as
the initial command-line argument is not treated as exit — it falls
through to the usage message and the state is unchanged, so the loop
still starts. -/
theorem exit_first_token_interactive_only :
    (∀ st l, splitWhitespace l ≠ [] → (splitWhitespace l)[0]! = r"exit" →
      loopStep st (LoopEvent.line l) = (StepRes.exit, [Output.exiting])) ∧
    (∀ st, startup [r"program", r"exit"] st = Except.ok (st, [Output.usage])) := by
  constructor
  · intro st l hne hx
    cases harg : splitWhitespace l with
    | nil => exact absurd harg hne
    | cons a t =>
      have ha : a = r"exit" := by
        have : (splitWhitespace l)[0]! = a := by rw [harg]; simp
        rw [this] at hx
        exact hx
      simp [loopStep, harg, ha]
  · intro st
    rfl

theorem exit_first_token_interactive_only_wit :
    loopStep ⟨⟨[]⟩, []⟩ (LoopEvent.line (r"exit now")) =
      (StepRes.exit, [Output.exiting]) ∧
    startup [r"program", r"exit"] ⟨⟨[]⟩, []⟩ =
      Except.ok (⟨⟨[]⟩, []⟩, [Output.usage]) :=
  ⟨exit_first_token_interactive_only.1 ⟨⟨[]⟩, []⟩ (r"exit now") (by decide)
      (by decide),
    exit_first_token_interactive_only.2 ⟨⟨[]⟩, []⟩⟩
